import Mathlib

/-!
Verification development for the TacticalMapRenderer repository.

The repository has two source versions of the renderer class:
* `src/src/index.ts` — a loader with a process-wide `assetsCache` keyed by
  resolved path, a grid pass that additionally draws a cell-number text label,
  and a watermark pass; the loader awaits each `canvas.loadImage` call before
  issuing the next one.
* `src/unnamed/part_000` — a loader that pushes all `canvas.loadImage`
  promises first and then awaits fixed positional indices 0..5, a grid pass
  without the text label, and the same watermark pass.

The embedding below models images as records carrying their pixel size and
their source path, the decode backend (`canvas.loadImage`) as an oracle
`String → Option Image` (`none` = rejected promise), and a render as the list
of drawing operations issued on the 2D context, in order.  Geometry constants
come from `./interfaces/Map`, a file not present in the repository snapshot;
they are therefore kept abstract as a parameter structure, with coordinates in
`ℚ` (JavaScript number arithmetic on these integer-valued constants is exact).
-/

namespace TacticalMapRenderer

/-- A decoded image: pixel dimensions plus the source path it was decoded
from (decoded images from distinct files are distinct objects). -/
structure Image where
  width : Nat
  height : Nat
  src : String
deriving DecidableEq, Repr

/-- One entry of `mapData.cellsData` (interface `Cell`). -/
structure CellRecord where
  cellNumber : Nat
  mov : Bool
  los : Bool
  nonWalkableDuringFight : Bool
  blue : Bool
  red : Bool
deriving DecidableEq, Repr

/-- The `Options` interface: base asset path plus the two feature flags. -/
structure RenderOptions where
  assetPath : String
  displayStartCells : Bool
  addWatermark : Bool
deriving DecidableEq, Repr

/-- The `Constants` object from `./interfaces/Map` (file absent from the
snapshot, so the numeric values are abstract).  `MAP_WIDTH` is the grid row
width, a natural number used for `%` and `Math.floor` arithmetic; the pixel
geometry values are rationals. -/
structure Constants where
  WIDTH : ℚ
  HEIGHT : ℚ
  MAP_WIDTH : Nat
  CELL_WIDTH : ℚ
  CELL_HEIGHT : ℚ
  CELL_HALF_WIDTH : ℚ
  CELL_HALF_HEIGHT : ℚ
  CELL_OFFSET : ℚ
  CELL_DOUBLE_HEIGHT : ℚ
deriving DecidableEq, Repr

/-- The record returned by `loadAssets` in both versions: three mandatory
images and three optional ones. -/
structure LoadedAssets where
  high : Image
  gray : Image
  purple : Image
  ally : Option Image
  enemy : Option Image
  logo : Option Image
deriving DecidableEq, Repr

/-- A drawing operation issued on the canvas 2D context.  Pure state setters
(`fillStyle`, `font`, `textAlign`, `textBaseline`) are folded into the
operation that consumes them. -/
inductive DrawOp where
  | fillRect (x y w h : ℚ) (style : String)
  | drawImage (img : Image) (x y w h : ℚ)
  | fillText (text : String) (x y : ℚ)
deriving DecidableEq, Repr

/-- An asset-load event: `issue p` records an invocation of
`canvas.loadImage(p)`, `complete p` records that this decode finished. -/
inductive LoadEvent where
  | issue (path : String)
  | complete (path : String)
deriving DecidableEq, Repr

/-- The in-memory cache type of `assetsCache` (`src/src/index.ts` line 5):
an association list from resolved path to decoded image, newest first. -/
abbrev Cache := List (String × Image)

/-- Association-list lookup used for both the path-keyed cache and the
key-keyed `loadedAssets` record of the `src/src/index.ts` loader. -/
def lookupStr (p : String) : List (String × Image) → Option Image
  | [] => none
  | (k, v) :: rest => if p = k then some v else lookupStr p rest

/-- The `assets` record built at the top of `loadAssets` (both versions):
`Object.entries` iterates string keys in insertion order, so the entry list
is the three base entries followed by the conditional ones. -/
def assetEntries (opts : RenderOptions) : List (String × String) :=
  [("high", "areaUnitHigh"), ("gray", "grayCell"), ("purple", "purpleCell")] ++
    (if opts.displayStartCells then [("ally", "areaUnitAlly"), ("enemy", "areaUnitEnemy")] else []) ++
      (if opts.addWatermark then [("logo", "E-bou")] else [])

/-- The template literal both loaders use to turn a logical asset name into a
file path. -/
def resolvePath (opts : RenderOptions) (value : String) : String :=
  opts.assetPath ++ "/" ++ value ++ ".png"

/-- The file paths of a list of `(key, logical name)` entries, in order. -/
def entryPaths (opts : RenderOptions) (entries : List (String × String)) : List String :=
  entries.map (fun e => resolvePath opts e.2)

/-- All file paths requested by one render, in entry order. -/
def resolvedPaths (opts : RenderOptions) : List String :=
  entryPaths opts (assetEntries opts)

/-- The loader loop of `src/src/index.ts` (lines 48-58): for each entry, on a
cache hit reuse the cached image without calling `loadImage`; on a miss,
invoke `loadImage` (recorded as an `issue`/`complete` event pair, since the
`await` completes before the next iteration starts), store the image in the
cache, and record it under its logical key.  A failed decode rejects the
whole loop with the failing path. -/
def loadLoop (decode : String → Option Image) (opts : RenderOptions) :
    List (String × String) → Cache →
      Except String (List (String × Image) × Cache × List LoadEvent)
  | [], cache => Except.ok ([], cache, [])
  | (key, value) :: rest, cache =>
    let path := resolvePath opts value
    match lookupStr path cache with
    | some image =>
      match loadLoop decode opts rest cache with
      | Except.error e => Except.error e
      | Except.ok (loaded, cacheOut, evs) => Except.ok ((key, image) :: loaded, cacheOut, evs)
    | none =>
      match decode path with
      | none => Except.error path
      | some image =>
        match loadLoop decode opts rest ((path, image) :: cache) with
        | Except.error e => Except.error e
        | Except.ok (loaded, cacheOut, evs) =>
          Except.ok ((key, image) :: loaded, cacheOut,
            LoadEvent.issue path :: LoadEvent.complete path :: evs)

/-- Building the returned record from the key-keyed `loadedAssets` mapping
(`src/src/index.ts` lines 60-67).  The three base keys are always inserted by
the loop, so the `none` fallback is unreachable for the entry lists the
renderer produces. -/
def mkLoadedAssets (loaded : List (String × Image)) : Option LoadedAssets :=
  match lookupStr "high" loaded, lookupStr "gray" loaded, lookupStr "purple" loaded with
  | some h, some g, some p =>
    some ⟨h, g, p, lookupStr "ally" loaded, lookupStr "enemy" loaded, lookupStr "logo" loaded⟩
  | _, _, _ => none

/-- `loadAssets` of `src/src/index.ts`: run the loop against the process-wide
cache, then assemble the result record. -/
def loadAssetsIndex (decode : String → Option Image) (opts : RenderOptions) (cache : Cache) :
    Except String (LoadedAssets × Cache × List LoadEvent) :=
  match loadLoop decode opts (assetEntries opts) cache with
  | Except.error p => Except.error p
  | Except.ok (loaded, cacheOut, evs) =>
    match mkLoadedAssets loaded with
    | some a => Except.ok (a, cacheOut, evs)
    | none => Except.error "asset record incomplete"

/-- Awaiting the promise array of the `part_000` loader in index order:
the first rejected promise (in position order) propagates as the error. -/
def awaitLoop : List (String × Option Image) → Except String (List Image)
  | [] => Except.ok []
  | (path, none) :: _ => Except.error path
  | (_, some image) :: rest =>
    match awaitLoop rest with
    | Except.error e => Except.error e
    | Except.ok l => Except.ok (image :: l)

/-- `loadAssets` of `src/unnamed/part_000` (lines 46-57): push a `loadImage`
promise for every entry (first component: the issued paths, recorded even
when a later await fails), then await positions 0..5 of the promise array.
Positions 3, 4, 5 are taken as the `ally`, `enemy`, `logo` fields whatever
entries actually occupy them; awaiting a missing position yields
`undefined`, i.e. `none`. -/
def loadAssetsPart (decode : String → Option Image) (opts : RenderOptions) :
    List String × Except String LoadedAssets :=
  let issued := resolvedPaths opts
  (issued,
    match awaitLoop (issued.map (fun p => (p, decode p))) with
    | Except.error p => Except.error p
    | Except.ok (h :: g :: pu :: rest) =>
      Except.ok ⟨h, g, pu, rest[0]?, rest[1]?, rest[2]?⟩
    | Except.ok _ => Except.error "missing base assets")

/-- `addWatermark` (identical in both versions): cap the draw size at
100×100, keep the native size when smaller, and draw at a 10-pixel margin
from the bottom-right corner. -/
def addWatermark (c : Constants) (asset : Image) : DrawOp :=
  let assetWidth : ℚ := (min 100 asset.width : Nat)
  let assetHeight : ℚ := (min 100 asset.height : Nat)
  let margin : ℚ := 10
  DrawOp.drawImage asset (c.WIDTH - assetWidth - margin) (c.HEIGHT - assetHeight - margin)
    assetWidth assetHeight

/-- The operations the `part_000` grid pass issues for one cell
(lines 79-109): terrain tile, line-of-sight overlay, then the start-zone
overlays guarded by `displayStartCells`. -/
def cellOpsPart (c : Constants) (opts : RenderOptions) (assets : LoadedAssets)
    (cell : CellRecord) : List DrawOp :=
  let cellId := cell.cellNumber
  let coordY := cellId / c.MAP_WIDTH
  let x : ℚ := (cellId % c.MAP_WIDTH : Nat) * c.CELL_WIDTH + (coordY % 2 : Nat) * c.CELL_HALF_WIDTH
  let y : ℚ := (coordY : ℚ) * c.CELL_HALF_HEIGHT
  (if cell.mov && !cell.nonWalkableDuringFight then
      [DrawOp.drawImage (if coordY % 2 = 0 then assets.gray else assets.purple)
        x y c.CELL_WIDTH c.CELL_HEIGHT]
    else []) ++
  (if !cell.los && !cell.nonWalkableDuringFight then
      [DrawOp.drawImage assets.high x (y + c.CELL_OFFSET) c.CELL_WIDTH c.CELL_DOUBLE_HEIGHT]
    else []) ++
  (if opts.displayStartCells then
      (match assets.ally with
        | some a =>
          if cell.blue then
            [DrawOp.drawImage a x (y + c.CELL_OFFSET) c.CELL_WIDTH c.CELL_DOUBLE_HEIGHT]
          else []
        | none => []) ++
      (match assets.enemy with
        | some e =>
          if cell.red then
            [DrawOp.drawImage e x (y + c.CELL_OFFSET) c.CELL_WIDTH c.CELL_DOUBLE_HEIGHT]
          else []
        | none => [])
    else [])

/-- The operations the `src/src/index.ts` grid pass issues for one cell
(lines 89-132): the same four layers (start-zone guards written
`cell.blue && assets.ally && displayStartCells`), plus the cell-number text
label when any layer set `cellNeedToBeDraw`. -/
def cellOpsIndex (c : Constants) (opts : RenderOptions) (assets : LoadedAssets)
    (cell : CellRecord) : List DrawOp :=
  let cellId := cell.cellNumber
  let coordY := cellId / c.MAP_WIDTH
  let x : ℚ := (cellId % c.MAP_WIDTH : Nat) * c.CELL_WIDTH + (coordY % 2 : Nat) * c.CELL_HALF_WIDTH
  let y : ℚ := (coordY : ℚ) * c.CELL_HALF_HEIGHT
  let terrainDrawn := cell.mov && !cell.nonWalkableDuringFight
  let blueDrawn := cell.blue && assets.ally.isSome && opts.displayStartCells
  let redDrawn := cell.red && assets.enemy.isSome && opts.displayStartCells
  (if terrainDrawn then
      [DrawOp.drawImage (if coordY % 2 = 0 then assets.gray else assets.purple)
        x y c.CELL_WIDTH c.CELL_HEIGHT]
    else []) ++
  (if !cell.los && !cell.nonWalkableDuringFight then
      [DrawOp.drawImage assets.high x (y + c.CELL_OFFSET) c.CELL_WIDTH c.CELL_DOUBLE_HEIGHT]
    else []) ++
  (match assets.ally with
    | some a =>
      if cell.blue && opts.displayStartCells then
        [DrawOp.drawImage a x (y + c.CELL_OFFSET) c.CELL_WIDTH c.CELL_DOUBLE_HEIGHT]
      else []
    | none => []) ++
  (match assets.enemy with
    | some e =>
      if cell.red && opts.displayStartCells then
        [DrawOp.drawImage e x (y + c.CELL_OFFSET) c.CELL_WIDTH c.CELL_DOUBLE_HEIGHT]
      else []
    | none => []) ++
  (if terrainDrawn || blueDrawn || redDrawn then
      [DrawOp.fillText (toString cellId) (x + c.CELL_WIDTH / 2) (y + c.CELL_HEIGHT / 2)]
    else [])

/-- The `for (const cell of ...)` grid loop of `part_000`. -/
def gridOpsPart (c : Constants) (opts : RenderOptions) (assets : LoadedAssets) :
    List CellRecord → List DrawOp
  | [] => []
  | cell :: rest => cellOpsPart c opts assets cell ++ gridOpsPart c opts assets rest

/-- The `for (const cell of ...)` grid loop of `src/src/index.ts`. -/
def gridOpsIndex (c : Constants) (opts : RenderOptions) (assets : LoadedAssets) :
    List CellRecord → List DrawOp
  | [] => []
  | cell :: rest => cellOpsIndex c opts assets cell ++ gridOpsIndex c opts assets rest

/-- The draw-operation trace of `render()` in `src/src/index.ts` after the
assets resolved: black background fill, the grid pass, then the watermark
when `addWatermark && assets.logo`. -/
def renderOpsIndex (c : Constants) (opts : RenderOptions) (assets : LoadedAssets)
    (cells : List CellRecord) : List DrawOp :=
  DrawOp.fillRect 0 0 c.WIDTH c.HEIGHT "black" ::
    (gridOpsIndex c opts assets cells ++
      (if opts.addWatermark then
        match assets.logo with
        | some l => [addWatermark c l]
        | none => []
      else []))

/-- The draw-operation trace of `render()` in `part_000` after the assets
resolved. -/
def renderOpsPart (c : Constants) (opts : RenderOptions) (assets : LoadedAssets)
    (cells : List CellRecord) : List DrawOp :=
  DrawOp.fillRect 0 0 c.WIDTH c.HEIGHT "black" ::
    (gridOpsPart c opts assets cells ++
      (if opts.addWatermark then
        match assets.logo with
        | some l => [addWatermark c l]
        | none => []
      else []))

/-- Full `render()` of `src/src/index.ts`: `await this.loadAssets()` happens
before the canvas is created, so a load failure propagates before any draw
operation exists; on success the result is the draw trace plus the updated
process-wide cache. -/
def renderIndex (c : Constants) (decode : String → Option Image) (opts : RenderOptions)
    (cells : List CellRecord) (cache : Cache) : Except String (List DrawOp × Cache) :=
  match loadAssetsIndex decode opts cache with
  | Except.error p => Except.error p
  | Except.ok (assets, cacheOut, _) => Except.ok (renderOpsIndex c opts assets cells, cacheOut)

/-- Full `render()` of `part_000`: same structure, no cache. -/
def renderPart (c : Constants) (decode : String → Option Image) (opts : RenderOptions)
    (cells : List CellRecord) : Except String (List DrawOp) :=
  match (loadAssetsPart decode opts).2 with
  | Except.error p => Except.error p
  | Except.ok assets => Except.ok (renderOpsPart c opts assets cells)

/-- The screen x-position formula of the spec:
`screenX = col * cellWidth + (row mod 2) * halfCellWidth` with
`col = cellNumber mod gridRowWidth` and `row = floor(cellNumber / gridRowWidth)`
(`src/src/index.ts` line 97, `part_000` line 87). -/
def screenX (c : Constants) (cellId : Nat) : ℚ :=
  (cellId % c.MAP_WIDTH : Nat) * c.CELL_WIDTH + ((cellId / c.MAP_WIDTH) % 2 : Nat) * c.CELL_HALF_WIDTH

/-- The screen y-position formula of the spec: `screenY = row * halfCellHeight`
(`src/src/index.ts` line 98, `part_000` line 88). -/
def screenY (c : Constants) (cellId : Nat) : ℚ :=
  (cellId / c.MAP_WIDTH : Nat) * c.CELL_HALF_HEIGHT

/-- Whether a draw operation draws the given image (at any position/size). -/
def drawsImg (i : Image) : DrawOp → Bool
  | DrawOp.drawImage j _ _ _ _ => decide (j = i)
  | DrawOp.fillRect _ _ _ _ _ => false
  | DrawOp.fillText _ _ _ => false

/-- Whether a draw operation is a text label. -/
def isText : DrawOp → Bool
  | DrawOp.fillText _ _ _ => true
  | DrawOp.fillRect _ _ _ _ _ => false
  | DrawOp.drawImage _ _ _ _ _ => false

/-- "Every load is issued before any load completes": after dropping the
leading `issue` events, no `issue` event remains.  This is the load-event
shape a loader that fires all requests concurrently would produce. -/
def issuesPrecedeCompletes (evs : List LoadEvent) : Bool :=
  (evs.dropWhile (fun e => match e with | LoadEvent.issue _ => true | _ => false)).all
    (fun e => match e with | LoadEvent.issue _ => false | _ => true)

/-- Strictly sequential load-event shape: each issued decode completes
before the next decode is issued. -/
def seqEvents : List String → List LoadEvent
  | [] => []
  | p :: rest => LoadEvent.issue p :: LoadEvent.complete p :: seqEvents rest

/-- How many times `canvas.loadImage` was invoked for the path `p` in an
event list. -/
def countIssue (p : String) (evs : List LoadEvent) : Nat :=
  evs.countP (fun e => decide (e = LoadEvent.issue p))

/-- Concrete geometry used by the evaluation witnesses (the real values live
in the absent `./interfaces/Map`; any fixed values work since the theorems
are parametric in the constants). -/
def sampleConstants : Constants := ⟨772, 708, 14, 86, 43, 43, 21, -20, 86⟩

/-- Sample decoded image for witnesses. -/
def imgHigh : Image := ⟨1, 1, "hi"⟩

/-- Sample decoded image for witnesses. -/
def imgGray : Image := ⟨2, 2, "gr"⟩

/-- Sample decoded image for witnesses. -/
def imgPurple : Image := ⟨3, 3, "pu"⟩

/-- Sample decoded image for witnesses. -/
def imgAlly : Image := ⟨4, 4, "al"⟩

/-- Sample decoded image for witnesses. -/
def imgEnemy : Image := ⟨5, 5, "en"⟩

/-- Sample decoded image for witnesses; 200×50 exercises the 100×100 cap. -/
def imgLogo : Image := ⟨200, 50, "lo"⟩

/-- Sample loaded-asset record for witnesses. -/
def sampleAssets : LoadedAssets :=
  ⟨imgHigh, imgGray, imgPurple, some imgAlly, some imgEnemy, some imgLogo⟩

/-! ### Helper lemmas -/

theorem countIssue_cons_issue_self (p : String) (evs : List LoadEvent) :
    countIssue p (LoadEvent.issue p :: evs) = countIssue p evs + 1 := by
  simp [countIssue, List.countP_cons]

theorem countIssue_cons_issue_ne (p q : String) (hq : q ≠ p) (evs : List LoadEvent) :
    countIssue p (LoadEvent.issue q :: evs) = countIssue p evs := by
  simp [countIssue, List.countP_cons, hq]

theorem countIssue_cons_complete (p q : String) (evs : List LoadEvent) :
    countIssue p (LoadEvent.complete q :: evs) = countIssue p evs := by
  simp [countIssue, List.countP_cons]

theorem countIssue_append (p : String) (evs1 evs2 : List LoadEvent) :
    countIssue p (evs1 ++ evs2) = countIssue p evs1 + countIssue p evs2 := by
  simp [countIssue, List.countP_append]

theorem loadLoop_mono (decode : String → Option Image) (opts : RenderOptions) :
    ∀ (entries : List (String × String)) (cache : Cache) (loaded : List (String × Image))
      (cacheOut : Cache) (evs : List LoadEvent),
    loadLoop decode opts entries cache = Except.ok (loaded, cacheOut, evs) →
    ∀ p, (lookupStr p cache).isSome = true → (lookupStr p cacheOut).isSome = true := by
  intro entries
  induction entries with
  | nil =>
    intro cache loaded cacheOut evs h p hp
    simp only [loadLoop, Except.ok.injEq, Prod.mk.injEq] at h
    obtain ⟨-, h2, -⟩ := h
    rw [← h2]; exact hp
  | cons e rest ih =>
    obtain ⟨key, value⟩ := e
    intro cache loaded cacheOut evs h p hp
    simp only [loadLoop] at h
    cases hc : lookupStr (resolvePath opts value) cache with
    | some image =>
      simp only [hc] at h
      cases hr : loadLoop decode opts rest cache with
      | error e => simp [hr] at h
      | ok r =>
        obtain ⟨loaded2, cacheOut2, evs2⟩ := r
        simp only [hr, Except.ok.injEq, Prod.mk.injEq] at h
        obtain ⟨-, h2, -⟩ := h
        subst h2
        exact ih cache loaded2 _ evs2 hr p hp
    | none =>
      simp only [hc] at h
      cases hd : decode (resolvePath opts value) with
      | none => simp [hd] at h
      | some image =>
        simp only [hd] at h
        cases hr : loadLoop decode opts rest ((resolvePath opts value, image) :: cache) with
        | error e => simp [hr] at h
        | ok r =>
          obtain ⟨loaded2, cacheOut2, evs2⟩ := r
          simp only [hr, Except.ok.injEq, Prod.mk.injEq] at h
          obtain ⟨-, h2, -⟩ := h
          subst h2
          refine ih _ loaded2 _ evs2 hr p ?_
          simp only [lookupStr]
          split
          · simp
          · exact hp

theorem loadLoop_countIssue_cached (decode : String → Option Image) (opts : RenderOptions) :
    ∀ (entries : List (String × String)) (cache : Cache) (loaded : List (String × Image))
      (cacheOut : Cache) (evs : List LoadEvent),
    loadLoop decode opts entries cache = Except.ok (loaded, cacheOut, evs) →
    ∀ p, (lookupStr p cache).isSome = true → countIssue p evs = 0 := by
  intro entries
  induction entries with
  | nil =>
    intro cache loaded cacheOut evs h p hp
    simp only [loadLoop, Except.ok.injEq, Prod.mk.injEq] at h
    obtain ⟨-, -, h3⟩ := h
    rw [← h3]; rfl
  | cons e rest ih =>
    obtain ⟨key, value⟩ := e
    intro cache loaded cacheOut evs h p hp
    simp only [loadLoop] at h
    cases hc : lookupStr (resolvePath opts value) cache with
    | some image =>
      simp only [hc] at h
      cases hr : loadLoop decode opts rest cache with
      | error e => simp [hr] at h
      | ok r =>
        obtain ⟨loaded2, cacheOut2, evs2⟩ := r
        simp only [hr, Except.ok.injEq, Prod.mk.injEq] at h
        obtain ⟨-, -, h3⟩ := h
        subst h3
        exact ih cache loaded2 cacheOut2 _ hr p hp
    | none =>
      simp only [hc] at h
      cases hd : decode (resolvePath opts value) with
      | none => simp [hd] at h
      | some image =>
        simp only [hd] at h
        cases hr : loadLoop decode opts rest ((resolvePath opts value, image) :: cache) with
        | error e => simp [hr] at h
        | ok r =>
          obtain ⟨loaded2, cacheOut2, evs2⟩ := r
          simp only [hr, Except.ok.injEq, Prod.mk.injEq] at h
          obtain ⟨-, -, h3⟩ := h
          subst h3
          have hne : resolvePath opts value ≠ p := by
            intro hEq
            rw [← hEq] at hp
            rw [hc] at hp
            simp at hp
          have hp2 : (lookupStr p ((resolvePath opts value, image) :: cache)).isSome = true := by
            simp only [lookupStr]
            split
            · simp
            · exact hp
          rw [countIssue_cons_issue_ne p _ hne, countIssue_cons_complete]
          exact ih _ loaded2 cacheOut2 evs2 hr p hp2

theorem loadLoop_countIssue_uncached (decode : String → Option Image) (opts : RenderOptions) :
    ∀ (entries : List (String × String)) (cache : Cache) (loaded : List (String × Image))
      (cacheOut : Cache) (evs : List LoadEvent),
    loadLoop decode opts entries cache = Except.ok (loaded, cacheOut, evs) →
    ∀ p, lookupStr p cache = none →
      countIssue p evs = (if p ∈ entryPaths opts entries then 1 else 0) ∧
        (p ∈ entryPaths opts entries → (lookupStr p cacheOut).isSome = true) := by
  intro entries
  induction entries with
  | nil =>
    intro cache loaded cacheOut evs h p hp
    simp only [loadLoop, Except.ok.injEq, Prod.mk.injEq] at h
    obtain ⟨-, -, h3⟩ := h
    rw [← h3]
    simp [entryPaths, countIssue]
  | cons e rest ih =>
    obtain ⟨key, value⟩ := e
    intro cache loaded cacheOut evs h p hp
    simp only [loadLoop] at h
    cases hc : lookupStr (resolvePath opts value) cache with
    | some image =>
      simp only [hc] at h
      cases hr : loadLoop decode opts rest cache with
      | error e => simp [hr] at h
      | ok r =>
        obtain ⟨loaded2, cacheOut2, evs2⟩ := r
        simp only [hr, Except.ok.injEq, Prod.mk.injEq] at h
        obtain ⟨-, h2, h3⟩ := h
        subst h2; subst h3
        have hne : p ≠ resolvePath opts value := by
          intro hEq
          rw [hEq, hc] at hp
          simp at hp
        have hmem : (p ∈ entryPaths opts ((key, value) :: rest)) ↔ (p ∈ entryPaths opts rest) := by
          simp [entryPaths, hne]
        simp only [hmem]
        exact ih cache loaded2 _ evs2 hr p hp
    | none =>
      simp only [hc] at h
      cases hd : decode (resolvePath opts value) with
      | none => simp [hd] at h
      | some image =>
        simp only [hd] at h
        cases hr : loadLoop decode opts rest ((resolvePath opts value, image) :: cache) with
        | error e => simp [hr] at h
        | ok r =>
          obtain ⟨loaded2, cacheOut2, evs2⟩ := r
          simp only [hr, Except.ok.injEq, Prod.mk.injEq] at h
          obtain ⟨-, h2, h3⟩ := h
          subst h2; subst h3
          by_cases hpv : p = resolvePath opts value
          · have hcached : (lookupStr p ((resolvePath opts value, image) :: cache)).isSome = true := by
              simp [lookupStr, hpv]
            have hz := loadLoop_countIssue_cached decode opts rest _ loaded2 _ evs2 hr p hcached
            have hmem : p ∈ entryPaths opts ((key, value) :: rest) := by
              simp [entryPaths, hpv]
            constructor
            · rw [← hpv, countIssue_cons_issue_self, countIssue_cons_complete, hz]
              simp [hmem]
            · intro _
              exact loadLoop_mono decode opts rest _ loaded2 _ evs2 hr p hcached
          · have hp2 : lookupStr p ((resolvePath opts value, image) :: cache) = none := by
              simp only [lookupStr]
              split
              · exact absurd (by assumption) hpv
              · exact hp
            obtain ⟨hcount, hcov⟩ := ih _ loaded2 _ evs2 hr p hp2
            have hmem : (p ∈ entryPaths opts ((key, value) :: rest)) ↔ (p ∈ entryPaths opts rest) := by
              simp [entryPaths, hpv]
            constructor
            · rw [countIssue_cons_issue_ne p _ (fun hEq => hpv hEq.symm), countIssue_cons_complete]
              simp only [hmem]
              exact hcount
            · simp only [hmem]; exact hcov

theorem loadLoop_error_of_failing (decode : String → Option Image) (opts : RenderOptions) :
    ∀ (entries : List (String × String)) (cache : Cache),
    (∃ pr ∈ entries, lookupStr (resolvePath opts pr.2) cache = none ∧
      decode (resolvePath opts pr.2) = none) →
    ∃ q, loadLoop decode opts entries cache = Except.error q := by
  intro entries
  induction entries with
  | nil =>
    intro cache h
    obtain ⟨pr, hmem, -⟩ := h
    simp at hmem
  | cons e rest ih =>
    obtain ⟨key, value⟩ := e
    intro cache h
    obtain ⟨pr, hmem, hlk, hdec⟩ := h
    simp only [List.mem_cons] at hmem
    cases hc : lookupStr (resolvePath opts value) cache with
    | some image =>
      have hmem' : pr ∈ rest := by
        cases hmem with
        | inl hEq =>
          exfalso
          rw [hEq] at hlk
          simp only at hlk
          rw [hc] at hlk
          exact Option.noConfusion hlk
        | inr hr => exact hr
      obtain ⟨q, hq⟩ := ih cache ⟨pr, hmem', hlk, hdec⟩
      exact ⟨q, by simp only [loadLoop, hc, hq]⟩
    | none =>
      cases hd : decode (resolvePath opts value) with
      | none => exact ⟨resolvePath opts value, by simp only [loadLoop, hc, hd]⟩
      | some image =>
        have hmem' : pr ∈ rest := by
          cases hmem with
          | inl hEq =>
            exfalso
            rw [hEq] at hdec
            simp only at hdec
            rw [hd] at hdec
            exact Option.noConfusion hdec
          | inr hr => exact hr
        have hlk' : lookupStr (resolvePath opts pr.2) ((resolvePath opts value, image) :: cache) = none := by
          simp only [lookupStr]
          split
          · rename_i hEq2
            exfalso
            rw [hEq2] at hdec
            rw [hd] at hdec
            exact Option.noConfusion hdec
          · exact hlk
        obtain ⟨q, hq⟩ := ih _ ⟨pr, hmem', hlk', hdec⟩
        exact ⟨q, by simp only [loadLoop, hc, hd, hq]⟩

theorem loadLoop_seqEvents (decode : String → Option Image) (opts : RenderOptions) :
    ∀ (entries : List (String × String)) (cache : Cache) (loaded : List (String × Image))
      (cacheOut : Cache) (evs : List LoadEvent),
    loadLoop decode opts entries cache = Except.ok (loaded, cacheOut, evs) →
    ∃ ps, evs = seqEvents ps := by
  intro entries
  induction entries with
  | nil =>
    intro cache loaded cacheOut evs h
    simp only [loadLoop, Except.ok.injEq, Prod.mk.injEq] at h
    obtain ⟨-, -, h3⟩ := h
    exact ⟨[], h3.symm⟩
  | cons e rest ih =>
    obtain ⟨key, value⟩ := e
    intro cache loaded cacheOut evs h
    simp only [loadLoop] at h
    cases hc : lookupStr (resolvePath opts value) cache with
    | some image =>
      simp only [hc] at h
      cases hr : loadLoop decode opts rest cache with
      | error e => simp [hr] at h
      | ok r =>
        obtain ⟨loaded2, cacheOut2, evs2⟩ := r
        simp only [hr, Except.ok.injEq, Prod.mk.injEq] at h
        obtain ⟨-, -, h3⟩ := h
        subst h3
        exact ih cache loaded2 cacheOut2 _ hr
    | none =>
      simp only [hc] at h
      cases hd : decode (resolvePath opts value) with
      | none => simp [hd] at h
      | some image =>
        simp only [hd] at h
        cases hr : loadLoop decode opts rest ((resolvePath opts value, image) :: cache) with
        | error e => simp [hr] at h
        | ok r =>
          obtain ⟨loaded2, cacheOut2, evs2⟩ := r
          simp only [hr, Except.ok.injEq, Prod.mk.injEq] at h
          obtain ⟨-, -, h3⟩ := h
          obtain ⟨ps, hps⟩ := ih _ loaded2 cacheOut2 evs2 hr
          refine ⟨resolvePath opts value :: ps, ?_⟩
          rw [← h3, hps]
          rfl

theorem loadLoop_coverage (decode : String → Option Image) (opts : RenderOptions) :
    ∀ (entries : List (String × String)) (cache : Cache) (loaded : List (String × Image))
      (cacheOut : Cache) (evs : List LoadEvent),
    loadLoop decode opts entries cache = Except.ok (loaded, cacheOut, evs) →
    ∀ pr ∈ entries, (lookupStr (resolvePath opts pr.2) cacheOut).isSome = true := by
  intro entries
  induction entries with
  | nil =>
    intro cache loaded cacheOut evs h pr hpr
    simp at hpr
  | cons e rest ih =>
    obtain ⟨key, value⟩ := e
    intro cache loaded cacheOut evs h pr hpr
    simp only [List.mem_cons] at hpr
    simp only [loadLoop] at h
    cases hc : lookupStr (resolvePath opts value) cache with
    | some image =>
      simp only [hc] at h
      cases hr : loadLoop decode opts rest cache with
      | error e => simp [hr] at h
      | ok r =>
        obtain ⟨loaded2, cacheOut2, evs2⟩ := r
        simp only [hr, Except.ok.injEq, Prod.mk.injEq] at h
        obtain ⟨-, h2, -⟩ := h
        subst h2
        cases hpr with
        | inl hEq =>
          rw [hEq]
          simp only
          exact loadLoop_mono decode opts rest cache loaded2 _ evs2 hr _ (by rw [hc]; rfl)
        | inr hmem => exact ih cache loaded2 _ evs2 hr pr hmem
    | none =>
      simp only [hc] at h
      cases hd : decode (resolvePath opts value) with
      | none => simp [hd] at h
      | some image =>
        simp only [hd] at h
        cases hr : loadLoop decode opts rest ((resolvePath opts value, image) :: cache) with
        | error e => simp [hr] at h
        | ok r =>
          obtain ⟨loaded2, cacheOut2, evs2⟩ := r
          simp only [hr, Except.ok.injEq, Prod.mk.injEq] at h
          obtain ⟨-, h2, -⟩ := h
          subst h2
          cases hpr with
          | inl hEq =>
            rw [hEq]
            simp only
            refine loadLoop_mono decode opts rest _ loaded2 _ evs2 hr _ ?_
            simp [lookupStr]
          | inr hmem => exact ih _ loaded2 _ evs2 hr pr hmem

theorem awaitLoop_error_of_failing :
    ∀ (l : List (String × Option Image)),
    (∃ pr ∈ l, pr.2 = none) → ∃ q, awaitLoop l = Except.error q := by
  intro l
  induction l with
  | nil =>
    intro h
    obtain ⟨pr, hmem, -⟩ := h
    simp at hmem
  | cons e rest ih =>
    obtain ⟨path, res⟩ := e
    intro h
    cases res with
    | none => exact ⟨path, rfl⟩
    | some image =>
      obtain ⟨pr, hmem, hnone⟩ := h
      simp only [List.mem_cons] at hmem
      have hmem' : pr ∈ rest := by
        cases hmem with
        | inl hEq =>
          exfalso
          rw [hEq] at hnone
          exact Option.noConfusion hnone
        | inr hr => exact hr
      obtain ⟨q, hq⟩ := ih ⟨pr, hmem', hnone⟩
      refine ⟨q, ?_⟩
      simp only [awaitLoop, hq]

theorem loadAssetsIndex_ok_inv (decode : String → Option Image) (opts : RenderOptions)
    (cache : Cache) (a : LoadedAssets) (cacheOut : Cache) (evs : List LoadEvent) :
    loadAssetsIndex decode opts cache = Except.ok (a, cacheOut, evs) →
    ∃ loaded, loadLoop decode opts (assetEntries opts) cache = Except.ok (loaded, cacheOut, evs) := by
  intro h
  simp only [loadAssetsIndex] at h
  cases hr : loadLoop decode opts (assetEntries opts) cache with
  | error e => simp [hr] at h
  | ok r =>
    obtain ⟨loaded, cacheOut2, evs2⟩ := r
    simp only [hr] at h
    cases hm : mkLoadedAssets loaded with
    | none => simp [hm] at h
    | some a2 =>
      simp only [hm, Except.ok.injEq, Prod.mk.injEq] at h
      obtain ⟨-, h2, h3⟩ := h
      subst h2; subst h3
      exact ⟨loaded, rfl⟩

theorem isText_fillRect (x y w h : ℚ) (s : String) :
    isText (DrawOp.fillRect x y w h s) = false := rfl

theorem isText_drawImage (i : Image) (x y w h : ℚ) :
    isText (DrawOp.drawImage i x y w h) = false := rfl

theorem drawsImg_fillText (img : Image) (t : String) (x y : ℚ) :
    drawsImg img (DrawOp.fillText t x y) = false := rfl

theorem drawsImg_drawImage_ne {img j : Image} (h : j ≠ img) (x y w hq : ℚ) :
    drawsImg img (DrawOp.drawImage j x y w hq) = false := by
  simp [drawsImg, h]

theorem cellOps_filter_nonText (c : Constants) (opts : RenderOptions) (assets : LoadedAssets)
    (cell : CellRecord) :
    (cellOpsIndex c opts assets cell).filter (fun op => !(isText op)) =
      cellOpsPart c opts assets cell := by
  cases hm : cell.mov <;> cases hn : cell.nonWalkableDuringFight <;> cases hl : cell.los <;>
    cases hb : cell.blue <;> cases hr : cell.red <;> cases hd : opts.displayStartCells <;>
      cases ha : assets.ally <;> cases he : assets.enemy <;>
        simp [cellOpsIndex, cellOpsPart, isText, hm, hn, hl, hb, hr, hd, ha, he]

theorem cellOps_filter_text (c : Constants) (opts : RenderOptions) (assets : LoadedAssets)
    (cell : CellRecord) :
    (cellOpsIndex c opts assets cell).filter isText =
      (if (cell.mov && !cell.nonWalkableDuringFight) ||
          (cell.blue && assets.ally.isSome && opts.displayStartCells) ||
          (cell.red && assets.enemy.isSome && opts.displayStartCells) then
        [DrawOp.fillText (toString cell.cellNumber)
          ((cell.cellNumber % c.MAP_WIDTH : Nat) * c.CELL_WIDTH +
            ((cell.cellNumber / c.MAP_WIDTH) % 2 : Nat) * c.CELL_HALF_WIDTH + c.CELL_WIDTH / 2)
          ((cell.cellNumber / c.MAP_WIDTH : Nat) * c.CELL_HALF_HEIGHT + c.CELL_HEIGHT / 2)]
      else []) := by
  cases hm : cell.mov <;> cases hn : cell.nonWalkableDuringFight <;> cases hl : cell.los <;>
    cases hb : cell.blue <;> cases hr : cell.red <;> cases hd : opts.displayStartCells <;>
      cases ha : assets.ally <;> cases he : assets.enemy <;>
        simp [cellOpsIndex, isText, hm, hn, hl, hb, hr, hd, ha, he]

theorem gridOps_filter_nonText (c : Constants) (opts : RenderOptions) (assets : LoadedAssets) :
    ∀ cells, (gridOpsIndex c opts assets cells).filter (fun op => !(isText op)) =
      gridOpsPart c opts assets cells := by
  intro cells
  induction cells with
  | nil => rfl
  | cons cell rest ih =>
    simp only [gridOpsIndex, gridOpsPart, List.filter_append, ih, cellOps_filter_nonText]

theorem mem_cellOpsIndex_inv (c : Constants) (opts : RenderOptions) (assets : LoadedAssets)
    (cell : CellRecord) (op : DrawOp) (hop : op ∈ cellOpsIndex c opts assets cell) :
    (cell.mov = true ∧ cell.nonWalkableDuringFight = false ∧
      op = DrawOp.drawImage
        (if (cell.cellNumber / c.MAP_WIDTH) % 2 = 0 then assets.gray else assets.purple)
        (screenX c cell.cellNumber) (screenY c cell.cellNumber) c.CELL_WIDTH c.CELL_HEIGHT) ∨
    (cell.los = false ∧ cell.nonWalkableDuringFight = false ∧
      op = DrawOp.drawImage assets.high (screenX c cell.cellNumber)
        (screenY c cell.cellNumber + c.CELL_OFFSET) c.CELL_WIDTH c.CELL_DOUBLE_HEIGHT) ∨
    (∃ a, assets.ally = some a ∧ cell.blue = true ∧ opts.displayStartCells = true ∧
      op = DrawOp.drawImage a (screenX c cell.cellNumber)
        (screenY c cell.cellNumber + c.CELL_OFFSET) c.CELL_WIDTH c.CELL_DOUBLE_HEIGHT) ∨
    (∃ e, assets.enemy = some e ∧ cell.red = true ∧ opts.displayStartCells = true ∧
      op = DrawOp.drawImage e (screenX c cell.cellNumber)
        (screenY c cell.cellNumber + c.CELL_OFFSET) c.CELL_WIDTH c.CELL_DOUBLE_HEIGHT) ∨
    (op = DrawOp.fillText (toString cell.cellNumber)
      (screenX c cell.cellNumber + c.CELL_WIDTH / 2)
      (screenY c cell.cellNumber + c.CELL_HEIGHT / 2)) := by
  simp only [cellOpsIndex, List.mem_append] at hop
  rcases hop with ((((h | h) | h) | h) | h)
  · refine Or.inl ?_
    split at h
    · rename_i hcond
      rw [Bool.and_eq_true, Bool.not_eq_true'] at hcond
      simp only [List.mem_singleton] at h
      exact ⟨hcond.1, hcond.2, by rw [h]; simp [screenX, screenY]⟩
    · simp at h
  · refine Or.inr (Or.inl ?_)
    split at h
    · rename_i hcond
      rw [Bool.and_eq_true, Bool.not_eq_true', Bool.not_eq_true'] at hcond
      simp only [List.mem_singleton] at h
      exact ⟨hcond.1, hcond.2, by rw [h]; simp [screenX, screenY]⟩
    · simp at h
  · refine Or.inr (Or.inr (Or.inl ?_))
    cases ha : assets.ally with
    | none => simp [ha] at h
    | some a =>
      simp only [ha] at h
      split at h
      · rename_i hcond
        rw [Bool.and_eq_true] at hcond
        simp only [List.mem_singleton] at h
        exact ⟨a, rfl, hcond.1, hcond.2, by rw [h]; simp [screenX, screenY]⟩
      · simp at h
  · refine Or.inr (Or.inr (Or.inr (Or.inl ?_)))
    cases he : assets.enemy with
    | none => simp [he] at h
    | some e =>
      simp only [he] at h
      split at h
      · rename_i hcond
        rw [Bool.and_eq_true] at hcond
        simp only [List.mem_singleton] at h
        exact ⟨e, rfl, hcond.1, hcond.2, by rw [h]; simp [screenX, screenY]⟩
      · simp at h
  · refine Or.inr (Or.inr (Or.inr (Or.inr ?_)))
    split at h
    · simp only [List.mem_singleton] at h
      rw [h]; simp [screenX, screenY]
    · simp at h

theorem mem_cellOpsPart_inv (c : Constants) (opts : RenderOptions) (assets : LoadedAssets)
    (cell : CellRecord) (op : DrawOp) (hop : op ∈ cellOpsPart c opts assets cell) :
    (cell.mov = true ∧ cell.nonWalkableDuringFight = false ∧
      op = DrawOp.drawImage
        (if (cell.cellNumber / c.MAP_WIDTH) % 2 = 0 then assets.gray else assets.purple)
        (screenX c cell.cellNumber) (screenY c cell.cellNumber) c.CELL_WIDTH c.CELL_HEIGHT) ∨
    (cell.los = false ∧ cell.nonWalkableDuringFight = false ∧
      op = DrawOp.drawImage assets.high (screenX c cell.cellNumber)
        (screenY c cell.cellNumber + c.CELL_OFFSET) c.CELL_WIDTH c.CELL_DOUBLE_HEIGHT) ∨
    (∃ a, assets.ally = some a ∧ cell.blue = true ∧ opts.displayStartCells = true ∧
      op = DrawOp.drawImage a (screenX c cell.cellNumber)
        (screenY c cell.cellNumber + c.CELL_OFFSET) c.CELL_WIDTH c.CELL_DOUBLE_HEIGHT) ∨
    (∃ e, assets.enemy = some e ∧ cell.red = true ∧ opts.displayStartCells = true ∧
      op = DrawOp.drawImage e (screenX c cell.cellNumber)
        (screenY c cell.cellNumber + c.CELL_OFFSET) c.CELL_WIDTH c.CELL_DOUBLE_HEIGHT) := by
  simp only [cellOpsPart, List.mem_append] at hop
  rcases hop with ((h | h) | h)
  · refine Or.inl ?_
    split at h
    · rename_i hcond
      rw [Bool.and_eq_true, Bool.not_eq_true'] at hcond
      simp only [List.mem_singleton] at h
      exact ⟨hcond.1, hcond.2, by rw [h]; simp [screenX, screenY]⟩
    · simp at h
  · refine Or.inr (Or.inl ?_)
    split at h
    · rename_i hcond
      rw [Bool.and_eq_true, Bool.not_eq_true', Bool.not_eq_true'] at hcond
      simp only [List.mem_singleton] at h
      exact ⟨hcond.1, hcond.2, by rw [h]; simp [screenX, screenY]⟩
    · simp at h
  · split at h
    · rename_i hd
      simp only [List.mem_append] at h
      rcases h with h | h
      · refine Or.inr (Or.inr (Or.inl ?_))
        cases ha : assets.ally with
        | none => simp [ha] at h
        | some a =>
          simp only [ha] at h
          split at h
          · rename_i hb
            simp only [List.mem_singleton] at h
            exact ⟨a, rfl, hb, hd, by rw [h]; simp [screenX, screenY]⟩
          · simp at h
      · refine Or.inr (Or.inr (Or.inr ?_))
        cases he : assets.enemy with
        | none => simp [he] at h
        | some e =>
          simp only [he] at h
          split at h
          · rename_i hr
            simp only [List.mem_singleton] at h
            exact ⟨e, rfl, hr, hd, by rw [h]; simp [screenX, screenY]⟩
          · simp at h
    · simp at h

theorem cellOpsIndex_countP_drawsImg_zero (c : Constants) (opts : RenderOptions)
    (assets : LoadedAssets) (cell : CellRecord) (img : Image)
    (hg : assets.gray ≠ img) (hp : assets.purple ≠ img) (hh : assets.high ≠ img)
    (hal : ∀ a, assets.ally = some a → a ≠ img)
    (hen : ∀ e, assets.enemy = some e → e ≠ img) :
    (cellOpsIndex c opts assets cell).countP (drawsImg img) = 0 := by
  rw [List.countP_eq_zero]
  intro op hop
  rcases mem_cellOpsIndex_inv c opts assets cell op hop with
    ⟨-, -, heq⟩ | ⟨-, -, heq⟩ | ⟨a, ha, -, -, heq⟩ | ⟨e, he, -, -, heq⟩ | heq
  · rw [heq]
    have : (if (cell.cellNumber / c.MAP_WIDTH) % 2 = 0 then assets.gray else assets.purple) ≠ img := by
      split
      · exact hg
      · exact hp
    simp [drawsImg_drawImage_ne this]
  · rw [heq]; simp [drawsImg_drawImage_ne hh]
  · rw [heq]; simp [drawsImg_drawImage_ne (hal a ha)]
  · rw [heq]; simp [drawsImg_drawImage_ne (hen e he)]
  · rw [heq]; simp [drawsImg_fillText]

theorem gridOpsIndex_countP_drawsImg_zero (c : Constants) (opts : RenderOptions)
    (assets : LoadedAssets) (img : Image)
    (hg : assets.gray ≠ img) (hp : assets.purple ≠ img) (hh : assets.high ≠ img)
    (hal : ∀ a, assets.ally = some a → a ≠ img)
    (hen : ∀ e, assets.enemy = some e → e ≠ img) :
    ∀ cells, (gridOpsIndex c opts assets cells).countP (drawsImg img) = 0 := by
  intro cells
  induction cells with
  | nil => rfl
  | cons cell rest ih =>
    rw [gridOpsIndex, List.countP_append, ih,
      cellOpsIndex_countP_drawsImg_zero c opts assets cell img hg hp hh hal hen]

theorem getLast?_cons_append_singleton {α : Type} (x a : α) (l : List α) :
    (x :: (l ++ [a])).getLast? = some a := by
  rw [← List.cons_append, List.getLast?_concat]

theorem mem_losOverlay_cellOpsIndex (c : Constants) (opts : RenderOptions)
    (assets : LoadedAssets) (cell : CellRecord)
    (hl : cell.los = false) (hn : cell.nonWalkableDuringFight = false) :
    DrawOp.drawImage assets.high (screenX c cell.cellNumber)
        (screenY c cell.cellNumber + c.CELL_OFFSET) c.CELL_WIDTH c.CELL_DOUBLE_HEIGHT ∈
      cellOpsIndex c opts assets cell := by
  simp [cellOpsIndex, hl, hn, screenX, screenY]

theorem mem_allyOverlay_cellOpsIndex (c : Constants) (opts : RenderOptions)
    (assets : LoadedAssets) (cell : CellRecord) (a : Image)
    (ha : assets.ally = some a) (hb : cell.blue = true) (hd : opts.displayStartCells = true) :
    DrawOp.drawImage a (screenX c cell.cellNumber)
        (screenY c cell.cellNumber + c.CELL_OFFSET) c.CELL_WIDTH c.CELL_DOUBLE_HEIGHT ∈
      cellOpsIndex c opts assets cell := by
  simp [cellOpsIndex, ha, hb, hd, screenX, screenY]

/-! ### Claim theorems and witnesses -/

/-- C1 counterexample: the claim as stated quantifies over every render of
either version.  On the `src/unnamed/part_000` version with
`displayStartCells = false` and `addWatermark = true`, the logo asset
(`A/E-bou.png`) decodes successfully (first conjunct), yet the complete render
trace is just the background fill (second conjunct), which contains no draw of
the logo at all (third conjunct) — the positional awaits leave the `logo`
field `undefined`, so the watermark is never drawn. -/
theorem watermark_claim_counterexample :
    (fun s =>
        if s = "A/areaUnitHigh.png" then some imgHigh
        else if s = "A/grayCell.png" then some imgGray
        else if s = "A/purpleCell.png" then some imgPurple
        else if s = "A/E-bou.png" then some imgLogo
        else none) (resolvePath ⟨"A", false, true⟩ "E-bou") = some imgLogo ∧
    renderPart sampleConstants
        (fun s =>
          if s = "A/areaUnitHigh.png" then some imgHigh
          else if s = "A/grayCell.png" then some imgGray
          else if s = "A/purpleCell.png" then some imgPurple
          else if s = "A/E-bou.png" then some imgLogo
          else none)
        ⟨"A", false, true⟩ [] =
      Except.ok [DrawOp.fillRect 0 0 sampleConstants.WIDTH sampleConstants.HEIGHT "black"] ∧
    List.countP (drawsImg imgLogo)
        [DrawOp.fillRect 0 0 sampleConstants.WIDTH sampleConstants.HEIGHT "black"] = 0 :=
  ⟨rfl, rfl, rfl⟩

/-- C1 (amended, scoped to the `src/src/index.ts` version): when
`addWatermark` is true and the logo decoded (and is a different image from the
grid assets, as distinct files decode to distinct images), the
`src/src/index.ts` render trace draws the logo exactly once, at size
`min(100, width) × min(100, height)` and position
`(WIDTH − drawWidth − 10, HEIGHT − drawHeight − 10)`; when `addWatermark` is
false the trace is exactly the background fill plus the grid pass — no
watermark operation exists.  The `part_000` version does not satisfy the
original claim: see the counterexample above. -/
theorem watermark_drawn_once (c : Constants) (opts : RenderOptions) (assets : LoadedAssets)
    (cells : List CellRecord) (img : Image) :
    (opts.addWatermark = true → assets.logo = some img →
      assets.gray ≠ img → assets.purple ≠ img → assets.high ≠ img →
      (∀ a, assets.ally = some a → a ≠ img) → (∀ e, assets.enemy = some e → e ≠ img) →
      (renderOpsIndex c opts assets cells).countP (drawsImg img) = 1 ∧
      DrawOp.drawImage img (c.WIDTH - ((min 100 img.width : Nat) : ℚ) - 10)
          (c.HEIGHT - ((min 100 img.height : Nat) : ℚ) - 10)
          ((min 100 img.width : Nat) : ℚ) ((min 100 img.height : Nat) : ℚ) ∈
        renderOpsIndex c opts assets cells) ∧
    (opts.addWatermark = false →
      renderOpsIndex c opts assets cells =
        DrawOp.fillRect 0 0 c.WIDTH c.HEIGHT "black" :: gridOpsIndex c opts assets cells) := by
  constructor
  · intro hw hl hg hp hh hal hen
    have hgrid := gridOpsIndex_countP_drawsImg_zero c opts assets img hg hp hh hal hen cells
    constructor
    · simp [renderOpsIndex, hw, hl, addWatermark, List.countP_cons, List.countP_append,
        hgrid, drawsImg]
    · simp [renderOpsIndex, hw, hl, addWatermark]
  · intro hw
    simp [renderOpsIndex, hw]

/-- C1 witness at concrete geometry, assets and one cell. -/
theorem watermark_drawn_once_witness :
    (renderOpsIndex sampleConstants ⟨"A", true, true⟩ sampleAssets
        [⟨15, true, false, false, true, false⟩]).countP (drawsImg imgLogo) = 1 ∧
    DrawOp.drawImage imgLogo
        (sampleConstants.WIDTH - ((min 100 imgLogo.width : Nat) : ℚ) - 10)
        (sampleConstants.HEIGHT - ((min 100 imgLogo.height : Nat) : ℚ) - 10)
        ((min 100 imgLogo.width : Nat) : ℚ) ((min 100 imgLogo.height : Nat) : ℚ) ∈
      renderOpsIndex sampleConstants ⟨"A", true, true⟩ sampleAssets
        [⟨15, true, false, false, true, false⟩] :=
  (watermark_drawn_once sampleConstants ⟨"A", true, true⟩ sampleAssets
      [⟨15, true, false, false, true, false⟩] imgLogo).1 rfl rfl
    (by decide) (by decide) (by decide)
    (by intro a ha; cases ha; decide) (by intro e he; cases he; decide)

/-- C2: in the `src/unnamed/part_000` version, with
`displayStartCells = false` and `addWatermark = true`, the loader issues four
loads and then awaits positions 0..5, so the returned record's `ally` field
holds the decoded `E-bou.png` logo while `logo` is `none` (`undefined`);
consequently `render()` never invokes the watermark draw: its trace is just
the background fill and the grid pass. -/
theorem part_positional_misalignment (c : Constants) (decode : String → Option Image)
    (opts : RenderOptions) (cells : List CellRecord) (h g p l : Image)
    (hd : opts.displayStartCells = false) (hw : opts.addWatermark = true)
    (h1 : decode (resolvePath opts "areaUnitHigh") = some h)
    (h2 : decode (resolvePath opts "grayCell") = some g)
    (h3 : decode (resolvePath opts "purpleCell") = some p)
    (h4 : decode (resolvePath opts "E-bou") = some l) :
    (loadAssetsPart decode opts).2 = Except.ok ⟨h, g, p, some l, none, none⟩ ∧
    renderPart c decode opts cells =
      Except.ok (DrawOp.fillRect 0 0 c.WIDTH c.HEIGHT "black" ::
        gridOpsPart c opts ⟨h, g, p, some l, none, none⟩ cells) := by
  have hload : (loadAssetsPart decode opts).2 = Except.ok ⟨h, g, p, some l, none, none⟩ := by
    simp only [loadAssetsPart, resolvedPaths, entryPaths, assetEntries, hd, hw]
    simp [awaitLoop, h1, h2, h3, h4]
  refine ⟨hload, ?_⟩
  simp only [renderPart, hload]
  simp [renderOpsPart, hw]

/-- C2 witness at a concrete decode oracle. -/
theorem part_positional_misalignment_witness :
    (loadAssetsPart
        (fun s =>
          if s = "A/areaUnitHigh.png" then some imgHigh
          else if s = "A/grayCell.png" then some imgGray
          else if s = "A/purpleCell.png" then some imgPurple
          else if s = "A/E-bou.png" then some imgLogo
          else none)
        ⟨"A", false, true⟩).2 =
      Except.ok ⟨imgHigh, imgGray, imgPurple, some imgLogo, none, none⟩ ∧
    renderPart sampleConstants
        (fun s =>
          if s = "A/areaUnitHigh.png" then some imgHigh
          else if s = "A/grayCell.png" then some imgGray
          else if s = "A/purpleCell.png" then some imgPurple
          else if s = "A/E-bou.png" then some imgLogo
          else none)
        ⟨"A", false, true⟩ [] =
      Except.ok (DrawOp.fillRect 0 0 sampleConstants.WIDTH sampleConstants.HEIGHT "black" ::
        gridOpsPart sampleConstants ⟨"A", false, true⟩
          ⟨imgHigh, imgGray, imgPurple, some imgLogo, none, none⟩ []) :=
  part_positional_misalignment sampleConstants _ ⟨"A", false, true⟩ []
    imgHigh imgGray imgPurple imgLogo rfl rfl (by decide) (by decide) (by decide) (by decide)

/-- C3: if any required asset fails to decode (uncached in the `src/src/index.ts`
version), `render()` propagates a load error; in this model an `Except.error`
result carries no draw-operation list and no buffer, and in the source the
canvas is only created after `await this.loadAssets()` succeeds, so no drawing
happens at all. Both source versions are covered. -/
theorem load_failure_aborts_render (c : Constants) (decode : String → Option Image)
    (opts : RenderOptions) (cells : List CellRecord) (cache : Cache) :
    ((∃ p ∈ resolvedPaths opts, lookupStr p cache = none ∧ decode p = none) →
      ∃ q, renderIndex c decode opts cells cache = Except.error q) ∧
    ((∃ p ∈ resolvedPaths opts, decode p = none) →
      ∃ q, renderPart c decode opts cells = Except.error q) := by
  constructor
  · intro h
    obtain ⟨p, hmem, hlk, hdec⟩ := h
    rw [resolvedPaths, entryPaths, List.mem_map] at hmem
    obtain ⟨pr, hpr, hpath⟩ := hmem
    have hfail : ∃ pr ∈ assetEntries opts,
        lookupStr (resolvePath opts pr.2) cache = none ∧ decode (resolvePath opts pr.2) = none :=
      ⟨pr, hpr, by rw [hpath]; exact hlk, by rw [hpath]; exact hdec⟩
    obtain ⟨q, hq⟩ := loadLoop_error_of_failing decode opts (assetEntries opts) cache hfail
    exact ⟨q, by simp only [renderIndex, loadAssetsIndex, hq]⟩
  · intro h
    obtain ⟨p, hmem, hdec⟩ := h
    have hfail : ∃ pr ∈ (resolvedPaths opts).map (fun p => (p, decode p)), pr.2 = none :=
      ⟨(p, decode p), List.mem_map_of_mem _ hmem, hdec⟩
    obtain ⟨q, hq⟩ := awaitLoop_error_of_failing _ hfail
    exact ⟨q, by simp only [renderPart, loadAssetsPart, hq]⟩

/-- C3 witness: concrete failing decode, both versions abort. -/
theorem load_failure_aborts_render_witness :
    ((∃ p ∈ resolvedPaths ⟨"A", false, false⟩, lookupStr p ([] : Cache) = none ∧
        (fun (_ : String) => (none : Option Image)) p = none)) ∧
    (∃ q, renderIndex ⟨772, 708, 14, 86, 43, 43, 21, -20, 86⟩ (fun _ => none)
        ⟨"A", false, false⟩ [] [] = Except.error q) ∧
    (∃ q, renderPart ⟨772, 708, 14, 86, 43, 43, 21, -20, 86⟩ (fun _ => none)
        ⟨"A", false, false⟩ [] = Except.error q) :=
  ⟨⟨"A/areaUnitHigh.png", by decide, rfl, rfl⟩,
    (load_failure_aborts_render ⟨772, 708, 14, 86, 43, 43, 21, -20, 86⟩ (fun _ => none)
        ⟨"A", false, false⟩ [] []).1 ⟨"A/areaUnitHigh.png", by decide, rfl, rfl⟩,
    (load_failure_aborts_render ⟨772, 708, 14, 86, 43, 43, 21, -20, 86⟩ (fun _ => none)
        ⟨"A", false, false⟩ [] []).2 ⟨"A/areaUnitHigh.png", by decide, rfl⟩⟩

/-- C4: for two successive renders (the `src/src/index.ts` version, the only one
with the process-wide `assetsCache`) that both require the resolved path `p`,
with `p` not cached initially, `loadImage` is issued exactly once for `p` in
the first load's events and never in the second load's events: the second
render hits the cache. -/
theorem asset_decoded_once_across_renders (decode : String → Option Image)
    (opts1 opts2 : RenderOptions) (cache0 : Cache) (p : String)
    (a1 a2 : LoadedAssets) (cache1 cache2 : Cache) (evs1 evs2 : List LoadEvent)
    (hp1 : p ∈ resolvedPaths opts1) (hp2 : p ∈ resolvedPaths opts2)
    (hc0 : lookupStr p cache0 = none)
    (h1 : loadAssetsIndex decode opts1 cache0 = Except.ok (a1, cache1, evs1))
    (h2 : loadAssetsIndex decode opts2 cache1 = Except.ok (a2, cache2, evs2)) :
    countIssue p evs1 = 1 ∧ countIssue p evs2 = 0 ∧ countIssue p (evs1 ++ evs2) = 1 := by
  obtain ⟨loaded1, hl1⟩ := loadAssetsIndex_ok_inv decode opts1 cache0 a1 cache1 evs1 h1
  obtain ⟨loaded2, hl2⟩ := loadAssetsIndex_ok_inv decode opts2 cache1 a2 cache2 evs2 h2
  rw [resolvedPaths] at hp1 hp2
  obtain ⟨hcount1, hcov1⟩ :=
    loadLoop_countIssue_uncached decode opts1 (assetEntries opts1) cache0 loaded1 cache1 evs1 hl1 p hc0
  have hc1 : countIssue p evs1 = 1 := by rw [hcount1, if_pos hp1]
  have hin1 : (lookupStr p cache1).isSome = true := hcov1 hp1
  have hc2 : countIssue p evs2 = 0 :=
    loadLoop_countIssue_cached decode opts2 (assetEntries opts2) cache1 loaded2 cache2 evs2 hl2 p hin1
  exact ⟨hc1, hc2, by rw [countIssue_append, hc1, hc2]⟩

/-- C4 witness: one concrete path decoded once across two renders. -/
theorem asset_decoded_once_witness :
    countIssue "A/grayCell.png"
        (seqEvents ["A/areaUnitHigh.png", "A/grayCell.png", "A/purpleCell.png"]) = 1 ∧
    countIssue "A/grayCell.png" [] = 0 ∧
    countIssue "A/grayCell.png"
        (seqEvents ["A/areaUnitHigh.png", "A/grayCell.png", "A/purpleCell.png"] ++ []) = 1 :=
  asset_decoded_once_across_renders (fun _ => some ⟨1, 1, "img"⟩)
    ⟨"A", false, false⟩ ⟨"A", false, false⟩ [] "A/grayCell.png"
    ⟨⟨1, 1, "img"⟩, ⟨1, 1, "img"⟩, ⟨1, 1, "img"⟩, none, none, none⟩
    ⟨⟨1, 1, "img"⟩, ⟨1, 1, "img"⟩, ⟨1, 1, "img"⟩, none, none, none⟩
    [("A/purpleCell.png", ⟨1, 1, "img"⟩), ("A/grayCell.png", ⟨1, 1, "img"⟩),
     ("A/areaUnitHigh.png", ⟨1, 1, "img"⟩)]
    [("A/purpleCell.png", ⟨1, 1, "img"⟩), ("A/grayCell.png", ⟨1, 1, "img"⟩),
     ("A/areaUnitHigh.png", ⟨1, 1, "img"⟩)]
    (seqEvents ["A/areaUnitHigh.png", "A/grayCell.png", "A/purpleCell.png"]) []
    (by decide) (by decide) rfl rfl rfl

/-- C5: for a cell with `mov = true` and `nonWalkableDuringFight = false`, both
versions draw the terrain tile at the cell's screen position, choosing `gray`
exactly when `floor(cellNumber / MAP_WIDTH)` is even and `purple` otherwise;
when `mov` is false or `nonWalkableDuringFight` is true, no operation of
either version draws the `gray` or `purple` asset (the overlay images being
distinct from the terrain tiles). -/
theorem terrain_tile_parity (c : Constants) (opts : RenderOptions) (assets : LoadedAssets)
    (cell : CellRecord) :
    (cell.mov = true → cell.nonWalkableDuringFight = false →
      DrawOp.drawImage
          (if (cell.cellNumber / c.MAP_WIDTH) % 2 = 0 then assets.gray else assets.purple)
          (screenX c cell.cellNumber) (screenY c cell.cellNumber) c.CELL_WIDTH c.CELL_HEIGHT ∈
        cellOpsIndex c opts assets cell ∧
      DrawOp.drawImage
          (if (cell.cellNumber / c.MAP_WIDTH) % 2 = 0 then assets.gray else assets.purple)
          (screenX c cell.cellNumber) (screenY c cell.cellNumber) c.CELL_WIDTH c.CELL_HEIGHT ∈
        cellOpsPart c opts assets cell) ∧
    ((cell.mov = false ∨ cell.nonWalkableDuringFight = true) →
      assets.high ≠ assets.gray → assets.high ≠ assets.purple →
      (∀ a, assets.ally = some a → a ≠ assets.gray ∧ a ≠ assets.purple) →
      (∀ e, assets.enemy = some e → e ≠ assets.gray ∧ e ≠ assets.purple) →
      ∀ op, (op ∈ cellOpsIndex c opts assets cell ∨ op ∈ cellOpsPart c opts assets cell) →
        drawsImg assets.gray op = false ∧ drawsImg assets.purple op = false) := by
  constructor
  · intro hm hn
    constructor
    · simp [cellOpsIndex, hm, hn, screenX, screenY]
    · simp [cellOpsPart, hm, hn, screenX, screenY]
  · intro hcond hh1 hh2 hal hen op hop
    have hshape := hop.elim (mem_cellOpsIndex_inv c opts assets cell op)
      (fun hp => (mem_cellOpsPart_inv c opts assets cell op hp).imp_right
        (fun h2 => h2.imp_right (fun h3 => h3.imp_right Or.inl)))
    rcases hshape with ⟨hm, hn, -⟩ | ⟨-, -, heq⟩ | ⟨a, ha, -, -, heq⟩ | ⟨e, he, -, -, heq⟩ | heq
    · rcases hcond with hc | hc
      · rw [hm] at hc; exact absurd hc (by simp)
      · rw [hn] at hc; exact absurd hc (by simp)
    · rw [heq]
      exact ⟨drawsImg_drawImage_ne hh1 _ _ _ _, drawsImg_drawImage_ne hh2 _ _ _ _⟩
    · rw [heq]
      exact ⟨drawsImg_drawImage_ne (hal a ha).1 _ _ _ _,
        drawsImg_drawImage_ne (hal a ha).2 _ _ _ _⟩
    · rw [heq]
      exact ⟨drawsImg_drawImage_ne (hen e he).1 _ _ _ _,
        drawsImg_drawImage_ne (hen e he).2 _ _ _ _⟩
    · rw [heq]
      exact ⟨drawsImg_fillText _ _ _ _, drawsImg_fillText _ _ _ _⟩

/-- C5 witness: tile membership for cell 15 (odd row) and tile absence facts. -/
theorem terrain_tile_parity_witness :
    (DrawOp.drawImage
        (if ((15 : Nat) / sampleConstants.MAP_WIDTH) % 2 = 0 then sampleAssets.gray
          else sampleAssets.purple)
        (screenX sampleConstants 15) (screenY sampleConstants 15)
        sampleConstants.CELL_WIDTH sampleConstants.CELL_HEIGHT ∈
      cellOpsIndex sampleConstants ⟨"A", true, true⟩ sampleAssets
        ⟨15, true, false, false, true, false⟩ ∧
     DrawOp.drawImage
        (if ((15 : Nat) / sampleConstants.MAP_WIDTH) % 2 = 0 then sampleAssets.gray
          else sampleAssets.purple)
        (screenX sampleConstants 15) (screenY sampleConstants 15)
        sampleConstants.CELL_WIDTH sampleConstants.CELL_HEIGHT ∈
      cellOpsPart sampleConstants ⟨"A", true, true⟩ sampleAssets
        ⟨15, true, false, false, true, false⟩) ∧
    (drawsImg sampleAssets.gray
        (DrawOp.drawImage sampleAssets.high (screenX sampleConstants 0)
          (screenY sampleConstants 0 + sampleConstants.CELL_OFFSET)
          sampleConstants.CELL_WIDTH sampleConstants.CELL_DOUBLE_HEIGHT) = false ∧
     drawsImg sampleAssets.purple
        (DrawOp.drawImage sampleAssets.high (screenX sampleConstants 0)
          (screenY sampleConstants 0 + sampleConstants.CELL_OFFSET)
          sampleConstants.CELL_WIDTH sampleConstants.CELL_DOUBLE_HEIGHT) = false) :=
  ⟨(terrain_tile_parity sampleConstants ⟨"A", true, true⟩ sampleAssets
      ⟨15, true, false, false, true, false⟩).1 rfl rfl,
   (terrain_tile_parity sampleConstants ⟨"A", true, true⟩ sampleAssets
      ⟨0, false, false, false, false, false⟩).2 (Or.inl rfl)
    (by decide) (by decide)
    (by intro a ha; cases ha; exact ⟨by decide, by decide⟩)
    (by intro e he; cases he; exact ⟨by decide, by decide⟩)
    (DrawOp.drawImage sampleAssets.high (screenX sampleConstants 0)
      (screenY sampleConstants 0 + sampleConstants.CELL_OFFSET)
      sampleConstants.CELL_WIDTH sampleConstants.CELL_DOUBLE_HEIGHT)
    (Or.inl (mem_losOverlay_cellOpsIndex sampleConstants ⟨"A", true, true⟩ sampleAssets
      ⟨0, false, false, false, false, false⟩ rfl rfl))⟩

/-- C6: every image layer drawn for a cell, in either version, sits at
`screenX = (cellNumber mod MAP_WIDTH) * CELL_WIDTH + (row mod 2) * CELL_HALF_WIDTH`
and at `screenY = row * CELL_HALF_HEIGHT`, or at `screenY + CELL_OFFSET` for the
line-of-sight and start-zone overlays, where `row = floor(cellNumber / MAP_WIDTH)`. -/
theorem layer_positioning (c : Constants) (opts : RenderOptions) (assets : LoadedAssets)
    (cell : CellRecord) (op : DrawOp)
    (hop : op ∈ cellOpsIndex c opts assets cell ∨ op ∈ cellOpsPart c opts assets cell) :
    ∀ i x y w h, op = DrawOp.drawImage i x y w h →
      x = screenX c cell.cellNumber ∧
      (y = screenY c cell.cellNumber ∨ y = screenY c cell.cellNumber + c.CELL_OFFSET) := by
  intro i x y w h heq
  have hshape := hop.elim (mem_cellOpsIndex_inv c opts assets cell op)
    (fun hp => (mem_cellOpsPart_inv c opts assets cell op hp).imp_right
      (fun h2 => h2.imp_right (fun h3 => h3.imp_right Or.inl)))
  rw [heq] at hshape
  rcases hshape with ⟨-, -, he⟩ | ⟨-, -, he⟩ | ⟨a, -, -, -, he⟩ | ⟨e, -, -, -, he⟩ | he
  · simp only [DrawOp.drawImage.injEq] at he
    exact ⟨he.2.1, Or.inl he.2.2.1⟩
  · simp only [DrawOp.drawImage.injEq] at he
    exact ⟨he.2.1, Or.inr he.2.2.1⟩
  · simp only [DrawOp.drawImage.injEq] at he
    exact ⟨he.2.1, Or.inr he.2.2.1⟩
  · simp only [DrawOp.drawImage.injEq] at he
    exact ⟨he.2.1, Or.inr he.2.2.1⟩
  · simp at he

/-- C6 witness: the line-of-sight overlay of cell 0 sits at the computed position. -/
theorem layer_positioning_witness :
    screenX sampleConstants 0 = screenX sampleConstants 0 ∧
    (screenY sampleConstants 0 + sampleConstants.CELL_OFFSET = screenY sampleConstants 0 ∨
     screenY sampleConstants 0 + sampleConstants.CELL_OFFSET =
       screenY sampleConstants 0 + sampleConstants.CELL_OFFSET) :=
  layer_positioning sampleConstants ⟨"A", true, true⟩ sampleAssets
    ⟨0, false, false, false, false, false⟩
    (DrawOp.drawImage sampleAssets.high (screenX sampleConstants 0)
      (screenY sampleConstants 0 + sampleConstants.CELL_OFFSET)
      sampleConstants.CELL_WIDTH sampleConstants.CELL_DOUBLE_HEIGHT)
    (Or.inl (mem_losOverlay_cellOpsIndex sampleConstants ⟨"A", true, true⟩ sampleAssets
      ⟨0, false, false, false, false, false⟩ rfl rfl))
    sampleAssets.high (screenX sampleConstants 0)
    (screenY sampleConstants 0 + sampleConstants.CELL_OFFSET)
    sampleConstants.CELL_WIDTH sampleConstants.CELL_DOUBLE_HEIGHT rfl

/-- C7: a cell with `nonWalkableDuringFight = true` gets neither the terrain
tile nor the line-of-sight overlay in either version, whatever `mov` and `los`
are (no operation draws the `gray`, `purple` or `high` asset, the start-zone
images being distinct); and a cell with `los = false` and
`nonWalkableDuringFight = false` gets the line-of-sight overlay at
`(screenX, screenY + CELL_OFFSET)` spanning `CELL_DOUBLE_HEIGHT`, whatever
`mov` is. -/
theorem nonwalkable_suppression (c : Constants) (opts : RenderOptions) (assets : LoadedAssets)
    (cell : CellRecord) :
    (cell.nonWalkableDuringFight = true →
      (∀ a, assets.ally = some a → a ≠ assets.gray ∧ a ≠ assets.purple ∧ a ≠ assets.high) →
      (∀ e, assets.enemy = some e → e ≠ assets.gray ∧ e ≠ assets.purple ∧ e ≠ assets.high) →
      ∀ op, (op ∈ cellOpsIndex c opts assets cell ∨ op ∈ cellOpsPart c opts assets cell) →
        drawsImg assets.gray op = false ∧ drawsImg assets.purple op = false ∧
          drawsImg assets.high op = false) ∧
    (cell.los = false → cell.nonWalkableDuringFight = false →
      DrawOp.drawImage assets.high (screenX c cell.cellNumber)
          (screenY c cell.cellNumber + c.CELL_OFFSET) c.CELL_WIDTH c.CELL_DOUBLE_HEIGHT ∈
        cellOpsIndex c opts assets cell ∧
      DrawOp.drawImage assets.high (screenX c cell.cellNumber)
          (screenY c cell.cellNumber + c.CELL_OFFSET) c.CELL_WIDTH c.CELL_DOUBLE_HEIGHT ∈
        cellOpsPart c opts assets cell) := by
  constructor
  · intro hn hal hen op hop
    have hshape := hop.elim (mem_cellOpsIndex_inv c opts assets cell op)
      (fun hp => (mem_cellOpsPart_inv c opts assets cell op hp).imp_right
        (fun h2 => h2.imp_right (fun h3 => h3.imp_right Or.inl)))
    rcases hshape with ⟨-, hn2, -⟩ | ⟨-, hn2, -⟩ | ⟨a, ha, -, -, heq⟩ | ⟨e, he, -, -, heq⟩ | heq
    · rw [hn] at hn2; exact absurd hn2 (by simp)
    · rw [hn] at hn2; exact absurd hn2 (by simp)
    · rw [heq]
      exact ⟨drawsImg_drawImage_ne (hal a ha).1 _ _ _ _,
        drawsImg_drawImage_ne (hal a ha).2.1 _ _ _ _,
        drawsImg_drawImage_ne (hal a ha).2.2 _ _ _ _⟩
    · rw [heq]
      exact ⟨drawsImg_drawImage_ne (hen e he).1 _ _ _ _,
        drawsImg_drawImage_ne (hen e he).2.1 _ _ _ _,
        drawsImg_drawImage_ne (hen e he).2.2 _ _ _ _⟩
    · rw [heq]
      exact ⟨drawsImg_fillText _ _ _ _, drawsImg_fillText _ _ _ _, drawsImg_fillText _ _ _ _⟩
  · intro hl hn
    constructor
    · simp [cellOpsIndex, hl, hn, screenX, screenY]
    · simp [cellOpsPart, hl, hn, screenX, screenY]

/-- C7 witness at concrete cells. -/
theorem nonwalkable_suppression_witness :
    (drawsImg sampleAssets.gray
        (DrawOp.drawImage imgAlly (screenX sampleConstants 0)
          (screenY sampleConstants 0 + sampleConstants.CELL_OFFSET)
          sampleConstants.CELL_WIDTH sampleConstants.CELL_DOUBLE_HEIGHT) = false ∧
     drawsImg sampleAssets.purple
        (DrawOp.drawImage imgAlly (screenX sampleConstants 0)
          (screenY sampleConstants 0 + sampleConstants.CELL_OFFSET)
          sampleConstants.CELL_WIDTH sampleConstants.CELL_DOUBLE_HEIGHT) = false ∧
     drawsImg sampleAssets.high
        (DrawOp.drawImage imgAlly (screenX sampleConstants 0)
          (screenY sampleConstants 0 + sampleConstants.CELL_OFFSET)
          sampleConstants.CELL_WIDTH sampleConstants.CELL_DOUBLE_HEIGHT) = false) ∧
    (DrawOp.drawImage sampleAssets.high (screenX sampleConstants 0)
        (screenY sampleConstants 0 + sampleConstants.CELL_OFFSET)
        sampleConstants.CELL_WIDTH sampleConstants.CELL_DOUBLE_HEIGHT ∈
      cellOpsIndex sampleConstants ⟨"A", true, true⟩ sampleAssets
        ⟨0, true, false, false, false, false⟩ ∧
     DrawOp.drawImage sampleAssets.high (screenX sampleConstants 0)
        (screenY sampleConstants 0 + sampleConstants.CELL_OFFSET)
        sampleConstants.CELL_WIDTH sampleConstants.CELL_DOUBLE_HEIGHT ∈
      cellOpsPart sampleConstants ⟨"A", true, true⟩ sampleAssets
        ⟨0, true, false, false, false, false⟩) :=
  ⟨(nonwalkable_suppression sampleConstants ⟨"A", true, true⟩ sampleAssets
      ⟨0, true, false, true, true, false⟩).1 rfl
    (by intro a ha; cases ha; exact ⟨by decide, by decide, by decide⟩)
    (by intro e he; cases he; exact ⟨by decide, by decide, by decide⟩)
    (DrawOp.drawImage imgAlly (screenX sampleConstants 0)
      (screenY sampleConstants 0 + sampleConstants.CELL_OFFSET)
      sampleConstants.CELL_WIDTH sampleConstants.CELL_DOUBLE_HEIGHT)
    (Or.inl (mem_allyOverlay_cellOpsIndex sampleConstants ⟨"A", true, true⟩ sampleAssets
      ⟨0, true, false, true, true, false⟩ imgAlly rfl rfl rfl)),
   (nonwalkable_suppression sampleConstants ⟨"A", true, true⟩ sampleAssets
      ⟨0, true, false, false, false, false⟩).2 rfl rfl⟩

/-- C8: in the draw-operation sequence of one render, the terrain tile (when
applicable) is the first operation emitted for its cell — so it precedes every
overlay of that cell — and the watermark (when performed) is the very last
operation of the whole trace, so no later map-content draw can cover it.
Both versions are covered. -/
theorem draw_order (c : Constants) (opts : RenderOptions) (assets : LoadedAssets)
    (cells : List CellRecord) (cell : CellRecord) :
    (cell.mov = true → cell.nonWalkableDuringFight = false →
      (cellOpsIndex c opts assets cell).head? =
        some (DrawOp.drawImage
          (if (cell.cellNumber / c.MAP_WIDTH) % 2 = 0 then assets.gray else assets.purple)
          (screenX c cell.cellNumber) (screenY c cell.cellNumber) c.CELL_WIDTH c.CELL_HEIGHT) ∧
      (cellOpsPart c opts assets cell).head? =
        some (DrawOp.drawImage
          (if (cell.cellNumber / c.MAP_WIDTH) % 2 = 0 then assets.gray else assets.purple)
          (screenX c cell.cellNumber) (screenY c cell.cellNumber) c.CELL_WIDTH c.CELL_HEIGHT)) ∧
    (∀ l, opts.addWatermark = true → assets.logo = some l →
      (renderOpsIndex c opts assets cells).getLast? = some (addWatermark c l) ∧
      (renderOpsPart c opts assets cells).getLast? = some (addWatermark c l)) := by
  constructor
  · intro hm hn
    constructor
    · simp [cellOpsIndex, hm, hn, screenX, screenY]
    · simp [cellOpsPart, hm, hn, screenX, screenY]
  · intro l hw hl
    constructor
    · simp only [renderOpsIndex, hw, hl, if_true]
      exact getLast?_cons_append_singleton _ _ _
    · simp only [renderOpsPart, hw, hl, if_true]
      exact getLast?_cons_append_singleton _ _ _

/-- C8 witness: tile first for cell 15, watermark last in the whole trace. -/
theorem draw_order_witness :
    ((cellOpsIndex sampleConstants ⟨"A", true, true⟩ sampleAssets
        ⟨15, true, false, false, true, false⟩).head? =
      some (DrawOp.drawImage
        (if ((15 : Nat) / sampleConstants.MAP_WIDTH) % 2 = 0 then sampleAssets.gray
          else sampleAssets.purple)
        (screenX sampleConstants 15) (screenY sampleConstants 15)
        sampleConstants.CELL_WIDTH sampleConstants.CELL_HEIGHT) ∧
     (cellOpsPart sampleConstants ⟨"A", true, true⟩ sampleAssets
        ⟨15, true, false, false, true, false⟩).head? =
      some (DrawOp.drawImage
        (if ((15 : Nat) / sampleConstants.MAP_WIDTH) % 2 = 0 then sampleAssets.gray
          else sampleAssets.purple)
        (screenX sampleConstants 15) (screenY sampleConstants 15)
        sampleConstants.CELL_WIDTH sampleConstants.CELL_HEIGHT)) ∧
    ((renderOpsIndex sampleConstants ⟨"A", true, true⟩ sampleAssets
        [⟨15, true, false, false, true, false⟩]).getLast? =
      some (addWatermark sampleConstants imgLogo) ∧
     (renderOpsPart sampleConstants ⟨"A", true, true⟩ sampleAssets
        [⟨15, true, false, false, true, false⟩]).getLast? =
      some (addWatermark sampleConstants imgLogo)) :=
  ⟨(draw_order sampleConstants ⟨"A", true, true⟩ sampleAssets
      [⟨15, true, false, false, true, false⟩] ⟨15, true, false, false, true, false⟩).1 rfl rfl,
   (draw_order sampleConstants ⟨"A", true, true⟩ sampleAssets
      [⟨15, true, false, false, true, false⟩] ⟨15, true, false, false, true, false⟩).2
      imgLogo rfl rfl⟩

/-- C9: given the same constants, options, decoded assets and cell list, the
draw trace of the `src/src/index.ts` render with its `fillText` label
operations removed equals the `part_000` render trace, and the label
operations of a cell are exactly one centred cell-number label when some
layer set `cellNeedToBeDraw` for that cell, else none. -/
theorem grid_pass_refinement (c : Constants) (opts : RenderOptions) (assets : LoadedAssets)
    (cells : List CellRecord) :
    (renderOpsIndex c opts assets cells).filter (fun op => !(isText op)) =
      renderOpsPart c opts assets cells ∧
    (∀ cell, (cellOpsIndex c opts assets cell).filter isText =
      (if (cell.mov && !cell.nonWalkableDuringFight) ||
          (cell.blue && assets.ally.isSome && opts.displayStartCells) ||
          (cell.red && assets.enemy.isSome && opts.displayStartCells) then
        [DrawOp.fillText (toString cell.cellNumber)
          ((cell.cellNumber % c.MAP_WIDTH : Nat) * c.CELL_WIDTH +
            ((cell.cellNumber / c.MAP_WIDTH) % 2 : Nat) * c.CELL_HALF_WIDTH + c.CELL_WIDTH / 2)
          ((cell.cellNumber / c.MAP_WIDTH : Nat) * c.CELL_HALF_HEIGHT + c.CELL_HEIGHT / 2)]
      else [])) := by
  constructor
  · cases hw : opts.addWatermark with
    | false =>
      simp [renderOpsIndex, renderOpsPart, hw, List.filter_append, List.filter_cons,
        isText_fillRect, gridOps_filter_nonText]
    | true =>
      cases hl : assets.logo with
      | none =>
        simp [renderOpsIndex, renderOpsPart, hw, hl, List.filter_append, List.filter_cons,
          isText_fillRect, gridOps_filter_nonText]
      | some l =>
        simp [renderOpsIndex, renderOpsPart, hw, hl, addWatermark, List.filter_append,
          List.filter_cons, isText_fillRect, isText_drawImage, gridOps_filter_nonText]
  · intro cell
    exact cellOps_filter_text c opts assets cell

/-- C10 counterexample: in the `src/src/index.ts` loader the claim "no load
waits for another to complete before being issued" fails at a concrete input:
with an empty cache and three required assets, the event list interleaves
issue/complete pairs — the `grayCell` load is issued only after the
`areaUnitHigh` decode completed — so the issued loads do not all precede the
completions. -/
theorem concurrent_load_claim_counterexample :
    loadAssetsIndex (fun _ => some ⟨1, 1, "img"⟩) ⟨"A", false, false⟩ [] =
      Except.ok (⟨⟨1, 1, "img"⟩, ⟨1, 1, "img"⟩, ⟨1, 1, "img"⟩, none, none, none⟩,
        [("A/purpleCell.png", ⟨1, 1, "img"⟩), ("A/grayCell.png", ⟨1, 1, "img"⟩),
         ("A/areaUnitHigh.png", ⟨1, 1, "img"⟩)],
        seqEvents ["A/areaUnitHigh.png", "A/grayCell.png", "A/purpleCell.png"]) ∧
    issuesPrecedeCompletes
        (seqEvents ["A/areaUnitHigh.png", "A/grayCell.png", "A/purpleCell.png"]) = false :=
  ⟨rfl, rfl⟩

/-- C10 amended: in the `src/src/index.ts` version asset loads are strictly
sequential — every successful load run's event list is a chain of
issue-then-complete pairs, one per cache-missing entry, and on success every
required path ends up in the cache (the loader returns only after processing
every entry).  The `part_000` version, in contrast, pushes a `loadImage`
promise for every required path before awaiting any of them. -/
theorem load_issue_sequential (decode : String → Option Image) (opts : RenderOptions)
    (cache : Cache) (a : LoadedAssets) (cacheOut : Cache) (evs : List LoadEvent)
    (h : loadAssetsIndex decode opts cache = Except.ok (a, cacheOut, evs)) :
    (∃ ps, evs = seqEvents ps) ∧
    (∀ p ∈ resolvedPaths opts, (lookupStr p cacheOut).isSome = true) ∧
    (loadAssetsPart decode opts).1 = resolvedPaths opts := by
  obtain ⟨loaded, hl⟩ := loadAssetsIndex_ok_inv decode opts cache a cacheOut evs h
  refine ⟨loadLoop_seqEvents decode opts _ _ _ _ _ hl, ?_, rfl⟩
  intro p hp
  rw [resolvedPaths, entryPaths, List.mem_map] at hp
  obtain ⟨pr, hpr, hpath⟩ := hp
  rw [← hpath]
  exact loadLoop_coverage decode opts _ _ _ _ _ hl pr hpr

/-- C10 witness for the amended claim at a concrete successful run. -/
theorem load_issue_sequential_witness :
    (∃ ps, seqEvents ["A/areaUnitHigh.png", "A/grayCell.png", "A/purpleCell.png"] = seqEvents ps) ∧
    (lookupStr "A/grayCell.png"
        ([("A/purpleCell.png", ⟨1, 1, "img"⟩), ("A/grayCell.png", ⟨1, 1, "img"⟩),
          ("A/areaUnitHigh.png", ⟨1, 1, "img"⟩)] : Cache)).isSome = true ∧
    (loadAssetsPart (fun _ => some ⟨1, 1, "img"⟩) ⟨"A", false, false⟩).1 =
      resolvedPaths ⟨"A", false, false⟩ :=
  ⟨(load_issue_sequential (fun _ => some ⟨1, 1, "img"⟩) ⟨"A", false, false⟩ []
      ⟨⟨1, 1, "img"⟩, ⟨1, 1, "img"⟩, ⟨1, 1, "img"⟩, none, none, none⟩
      [("A/purpleCell.png", ⟨1, 1, "img"⟩), ("A/grayCell.png", ⟨1, 1, "img"⟩),
       ("A/areaUnitHigh.png", ⟨1, 1, "img"⟩)]
      (seqEvents ["A/areaUnitHigh.png", "A/grayCell.png", "A/purpleCell.png"]) rfl).1,
   (load_issue_sequential (fun _ => some ⟨1, 1, "img"⟩) ⟨"A", false, false⟩ []
      ⟨⟨1, 1, "img"⟩, ⟨1, 1, "img"⟩, ⟨1, 1, "img"⟩, none, none, none⟩
      [("A/purpleCell.png", ⟨1, 1, "img"⟩), ("A/grayCell.png", ⟨1, 1, "img"⟩),
       ("A/areaUnitHigh.png", ⟨1, 1, "img"⟩)]
      (seqEvents ["A/areaUnitHigh.png", "A/grayCell.png", "A/purpleCell.png"]) rfl).2.1
      "A/grayCell.png" (by decide),
   (load_issue_sequential (fun _ => some ⟨1, 1, "img"⟩) ⟨"A", false, false⟩ []
      ⟨⟨1, 1, "img"⟩, ⟨1, 1, "img"⟩, ⟨1, 1, "img"⟩, none, none, none⟩
      [("A/purpleCell.png", ⟨1, 1, "img"⟩), ("A/grayCell.png", ⟨1, 1, "img"⟩),
       ("A/areaUnitHigh.png", ⟨1, 1, "img"⟩)]
      (seqEvents ["A/areaUnitHigh.png", "A/grayCell.png", "A/purpleCell.png"]) rfl).2.2⟩

end TacticalMapRenderer
